import Mathlib

/-!
Shallow embedding of the dbhelper package (Go): table-descriptor building
from struct tags, the named-parameter statement compiler, parameter binding,
and the row-materialization engine of Pstmt.Query / Pstmt.Exec / Insert.

Machine integers of the source are modelled as Lean Int; the external
database driver (database/sql) is modelled as explicit function parameters
returning Except/Res values.  Go runtime panics (nil-map dereference, slice
index out of range, SetInt on an unaddressable reflect.Value) are modelled
by an explicit panic constructor of the Res type, distinct from Go error
values.
-/

namespace Dbhelper

/-- Go reflect.Kind, restricted to the kinds the source inspects. -/
inductive Kind where
  | string | int | int8 | int16 | int32 | int64
  | float32 | float64 | bool
  | structK | ptrK | sliceK | mapK | interfaceK | other
  deriving DecidableEq, Repr

/-- checkFieldType (dbhelper.go): only string, bool and fixed-width
signed integer / floating point kinds are mappable. -/
def checkFieldType (k : Kind) : Bool :=
  k = Kind.string || k = Kind.int || k = Kind.int8 || k = Kind.int16 ||
  k = Kind.int32 || k = Kind.int64 || k = Kind.float32 || k = Kind.float64 ||
  k = Kind.bool

/-- dbField (dbtable.go): one column binding. -/
structure DbField where
  index : List Nat
  column : String
  auto : Bool
  id : Bool
  created : Bool
  modified : Bool
  deriving DecidableEq, Repr

/-- The tag metadata of one Go struct field (reflect.StructField without
the type): declared name, db tag, dbopt tag, Anonymous flag and PkgPath
(nonempty PkgPath means the field is unexported). -/
structure FieldMeta where
  fname : String
  tagDb : String
  tagDbopt : String
  anonymous : Bool
  pkgPath : String
  deriving DecidableEq, Repr

mutual

/-- A Go type as far as the source inspects it: a struct with tagged
fields, or any other kind. -/
inductive GoType where
  | prim (k : Kind)
  | structT (fields : GoFields)

/-- The field list of a Go struct type, in declaration order. -/
inductive GoFields where
  | nil
  | cons (m : FieldMeta) (t : GoType) (rest : GoFields)

end

/-- reflect.Type.Kind for the embedded types. -/
def GoType.kind : GoType → Kind
  | .prim k => k
  | .structT _ => Kind.structK

/-- strings.Split(s, ",") on a character list. -/
def splitComma : List Char → List (List Char)
  | [] => [[]]
  | c :: cs =>
    if c = ',' then [] :: splitComma cs
    else
      match splitComma cs with
      | [] => [[c]]
      | t :: ts => (c :: t) :: ts

/-- Option tokens of a dbopt tag: spaces removed, then split on commas
(strings.Replace + strings.Split in parseField). -/
def optTokens (dbopt : String) : List String :=
  (splitComma (dbopt.toList.filter (fun c => c ≠ ' '))).map String.mk

/-- The switch over option tokens in parseField (dbtable.go).  Note the
source bug kept faithfully: the case for the token "skip" executes Go
continue, which merely moves to the next option token, so a skip-tagged
field is still mapped like any other field. -/
def applyOpts : List String → DbField → Except String DbField
  | [], f => .ok f
  | o :: os, f =>
    if o = "auto" then applyOpts os ⟨f.index, f.column, true, f.id, f.created, f.modified⟩
    else if o = "id" then applyOpts os ⟨f.index, f.column, f.auto, true, f.created, f.modified⟩
    else if o = "created" then applyOpts os ⟨f.index, f.column, f.auto, f.id, true, f.modified⟩
    else if o = "modified" then applyOpts os ⟨f.index, f.column, f.auto, f.id, f.created, true⟩
    else if o = "skip" then applyOpts os f
    else .error ("dbhelper: unknown option " ++ o)

/-- Prefix a descriptor index chain with the embedding field position
(the newIndex construction in parseField). -/
def prefixIndex (pos : Nat) (f : DbField) : DbField :=
  ⟨pos :: f.index, f.column, f.auto, f.id, f.created, f.modified⟩

mutual

/-- parseField (dbtable.go): descriptors contributed by one struct field
at position pos.  Anonymous struct fields are expanded recursively with
index prefixing; unexported fields yield no descriptor; non-struct
anonymous fields and unsupported field types are declaration errors. -/
def parseField (pos : Nat) (m : FieldMeta) (t : GoType) : Except String (List DbField) :=
  if m.anonymous then
    match t with
    | .prim _ => .error "dbhelper: anonymous field has unsupported type"
    | .structT fs =>
      match parseFieldList fs 0 with
      | .error e => .error e
      | .ok ds => .ok (ds.map (prefixIndex pos))
  else
    if m.pkgPath ≠ "" then .ok []
    else if !checkFieldType t.kind then
      .error ("dbhelper: field " ++ m.fname ++ " has unsupported type")
    else
      let column := if m.tagDb = "" then m.fname else m.tagDb
      let f0 : DbField := ⟨[pos], column, false, false, false, false⟩
      if m.tagDbopt = "" then .ok [f0]
      else
        match applyOpts (optTokens m.tagDbopt) f0 with
        | .error e => .error e
        | .ok f => .ok [f]

/-- The loop over the fields of an embedded struct in parseField. -/
def parseFieldList : GoFields → Nat → Except String (List DbField)
  | .nil, _ => .ok []
  | .cons m t rest, i =>
    match parseField i m t with
    | .error e => .error e
    | .ok ds =>
      match parseFieldList rest (i + 1) with
      | .error e => .error e
      | .ok rs => .ok (ds ++ rs)

end

/-- dbTable (dbtable.go): the map from column name to descriptor is kept
as an association list with unique keys (uniqueness is enforced by
newDbTable before every insertion, exactly as the source checks the Go
map). -/
structure DbTable where
  tname : String
  fields : List (String × DbField)
  idField : Option DbField
  createdField : Option DbField
  modifiedField : Option DbField
  numField : Nat
  numFieldAuto : Nat
  deriving DecidableEq, Repr

/-- Association-list lookup modelling Go map access tbl.fields[col]. -/
def lookupCol (c : String) : List (String × DbField) → Option DbField
  | [] => none
  | (c', f) :: rest => if c' = c then some f else lookupCol c rest

/-- The body of the inner loop of newDbTable: add one parsed descriptor
to the table under construction, enforcing column uniqueness and the
single id / created / modified invariants. -/
def addFieldToTable (tbl : DbTable) (f : DbField) : Except String DbTable :=
  if (lookupCol f.column tbl.fields).isSome then
    .error ("dbhelper: attempt to define several fields with the same column name " ++ f.column)
  else
    addFieldId
      ⟨tbl.tname, tbl.fields ++ [(f.column, f)], tbl.idField,
        tbl.createdField, tbl.modifiedField, tbl.numField + 1,
        if f.auto then tbl.numFieldAuto + 1 else tbl.numFieldAuto⟩ f
where
  addFieldId (tbl : DbTable) (f : DbField) : Except String DbTable :=
    if f.id then
      if tbl.idField.isSome then
        .error "dbhelper: attempt to define several fields with id option"
      else
        addFieldCreated ⟨tbl.tname, tbl.fields, some f, tbl.createdField,
          tbl.modifiedField, tbl.numField, tbl.numFieldAuto⟩ f
    else addFieldCreated tbl f
  addFieldCreated (tbl : DbTable) (f : DbField) : Except String DbTable :=
    if f.created then
      if tbl.createdField.isSome then
        .error "dbhelper: attempt to define several fields with created option"
      else
        addFieldModified ⟨tbl.tname, tbl.fields, tbl.idField, some f,
          tbl.modifiedField, tbl.numField, tbl.numFieldAuto⟩ f
    else addFieldModified tbl f
  addFieldModified (tbl : DbTable) (f : DbField) : Except String DbTable :=
    if f.modified then
      if tbl.modifiedField.isSome then
        .error "dbhelper: attempt to define several fields with modified option"
      else
        .ok ⟨tbl.tname, tbl.fields, tbl.idField, tbl.createdField, some f,
          tbl.numField, tbl.numFieldAuto⟩
    else .ok tbl

/-- The inner loop of newDbTable over the descriptors returned by
parseField for one top-level field. -/
def addFields : DbTable → List DbField → Except String DbTable
  | tbl, [] => .ok tbl
  | tbl, f :: fs =>
    match addFieldToTable tbl f with
    | .error e => .error e
    | .ok tbl' => addFields tbl' fs

/-- The outer loop of newDbTable over the top-level fields. -/
def newDbTableLoop : GoFields → Nat → DbTable → Except String DbTable
  | .nil, _, tbl => .ok tbl
  | .cons m t rest, i, tbl =>
    match parseField i m t with
    | .error e => .error e
    | .ok ds =>
      match addFields tbl ds with
      | .error e => .error e
      | .ok tbl' => newDbTableLoop rest (i + 1) tbl'

/-- newDbTable (dbtable.go).  prepareStandardQueries works against the
external database (Db.Prepare); it is abstracted as the parameter prep,
called after all declaration checks succeed, exactly where the source
calls tbl.prepareStandardQueries(). -/
def newDbTable (prep : DbTable → Except String Unit) (t : GoType) (name : String) :
    Except String DbTable :=
  match t with
  | .prim _ => .error "dbhelper: type is not a structure"
  | .structT fs =>
    match newDbTableLoop fs 0 ⟨name, [], none, none, none, 0, 0⟩ with
    | .error e => .error e
    | .ok tbl =>
      if tbl.numField = 0 then .error "dbhelper: structure type has no exported fields"
      else if tbl.idField.isNone then .error "dbhelper: structure type has no field with option id"
      else
        match prep tbl with
        | .error e => .error e
        | .ok _ => .ok tbl

/-- The registry dbh.tables (dbhelper.go).  Go keys the map by
reflect.Type identity; type identity is modelled by a string key carried
alongside the structural type. -/
def Registry := List (String × DbTable)

/-- Go map lookup dbh.tables[t]. -/
def lookupTable (key : String) : List (String × DbTable) → Option DbTable
  | [] => none
  | (k, tbl) :: rest => if k = key then some tbl else lookupTable key rest

/-- AddTable (dbhelper.go): returns the registry after the call together
with the error value (none on success).  The source mutates dbh.tables
only after newDbTable succeeds, so every error path returns the registry
unchanged. -/
def AddTable (prep : DbTable → Except String Unit) (reg : List (String × DbTable))
    (key : String) (t : GoType) (name : String) :
    List (String × DbTable) × Option String :=
  match lookupTable key reg with
  | some tbl => (reg, some ("dbhelper: type already has assigned table name " ++ tbl.tname))
  | none =>
    if name = "" then (reg, some "dbhelper: table name cannot be an empty string")
    else
      match newDbTable prep t name with
      | .error e => (reg, some e)
      | .ok tbl => ((key, tbl) :: reg, none)

/-- Membership of a token in a token list. -/
def hasTok (tok : String) : List String → Bool
  | [] => false
  | o :: os => if o = tok then true else hasTok tok os

/-- Whether a dbopt tag carries a given option token, computed exactly as
parseField computes the token list. -/
def hasOptToken (dbopt tok : String) : Bool :=
  hasTok tok (optTokens dbopt)

mutual

/-- Number of fields of a record type carrying a given option token:
anonymous struct fields are counted recursively, unexported fields are
not counted (parseField drops them before reading options). -/
def countTok (tok : String) : GoType → Nat
  | .prim _ => 0
  | .structT fs => countTokList tok fs

def countTokList (tok : String) : GoFields → Nat
  | .nil => 0
  | .cons m t rest =>
    (if m.anonymous then countTok tok t
     else if m.pkgPath ≠ "" then 0
     else if hasOptToken m.tagDbopt tok then 1 else 0) + countTokList tok rest

end

/-- The per-field contribution to countTokList. -/
def countTokField (tok : String) (m : FieldMeta) (t : GoType) : Nat :=
  if m.anonymous then countTok tok t
  else if m.pkgPath ≠ "" then 0
  else if hasOptToken m.tagDbopt tok then 1 else 0

/-- A character that ends the star of the placeholder pattern: comma,
closing parenthesis, or an RE2 whitespace character (tab, newline, form
feed, carriage return, space). -/
def isStopChar (c : Char) : Bool :=
  c = ',' || c = ')' || c = ' ' || c = '\t' || c = '\n' || c = '\r' || c = '\x0c'

def notStop (c : Char) : Bool := !(isStopChar c)

/-- paramRegexp.FindAllString(query, -1) for the pattern of a colon
followed by a maximal run of non-stop characters: the successive
leftmost, non-overlapping, greedy matches. -/
def findAllParams : List Char → List (List Char)
  | [] => []
  | c :: cs =>
    if c = ':' then
      (':' :: cs.takeWhile notStop) :: findAllParams (cs.dropWhile notStop)
    else findAllParams cs
termination_by l => l.length
decreasing_by
  · have h : ∀ l : List Char, (l.dropWhile notStop).length ≤ l.length := by
      intro l
      induction l with
      | nil => simp [List.dropWhile]
      | cons c cs ih =>
        simp only [List.dropWhile]
        cases notStop c
        · exact Nat.le_refl _
        · exact Nat.le_succ_of_le ih
    exact Nat.lt_succ_of_le (h _)
  · simp

/-- strings.Replace(s, old, new, 1): replace the first occurrence of old
in s. -/
def replaceFirst : List Char → List Char → List Char → List Char
  | [], old, new => if old = [] then new else []
  | c :: cs, old, new =>
    if old.isPrefixOf (c :: cs) then new ++ (c :: cs).drop old.length
    else c :: replaceFirst cs old new

/-- The rewrite loop of Prepare (dbhelper.go): for the i-th regexp match
p, fail if p is shorter than two characters, otherwise replace the first
occurrence of p in the current query text with the next placeholder token
and record p without its leading colon.  The stateful placeholder
generator is modelled by indexing: its i-th next() call returns ph i. -/
def prepareLoop (ph : Nat → List Char) :
    Nat → List (List Char) → List Char → Option (List Char × List (List Char))
  | _, [], q => some (q, [])
  | i, p :: ps, q =>
    if p.length < 2 then none
    else
      match prepareLoop ph (i + 1) ps (replaceFirst q p (ph i)) with
      | none => none
      | some (q', names) => some (q', p.drop 1 :: names)

/-- Prepare (dbhelper.go) up to the driver hand-off: the rewritten query
text and the ordered parameter-name list (none models the wrong-parameter
error return). -/
def prepareGo (ph : Nat → List Char) (query : List Char) :
    Option (List Char × List (List Char)) :=
  prepareLoop ph 0 (findAllParams query) query

/-- Modelled from the spec's words, for comparison with prepareGo: scan
the text left to right; each colon-led token is replaced in place, at its
own occurrence, by the next placeholder token while its name is appended
to the list, so placeholders and names stay in lock-step by
construction. -/
def prepareSpec (ph : Nat → List Char) :
    Nat → List Char → Option (List Char × List (List Char))
  | _, [] => some ([], [])
  | i, c :: cs =>
    if c = ':' then
      let tok := cs.takeWhile notStop
      if tok.length = 0 then none
      else
        match prepareSpec ph (i + 1) (cs.dropWhile notStop) with
        | none => none
        | some (q, names) => some (ph i ++ q, tok :: names)
    else
      match prepareSpec ph i cs with
      | none => none
      | some (q, names) => some (c :: q, names)
termination_by _ l => l.length
decreasing_by
  · have h : ∀ l : List Char, (l.dropWhile notStop).length ≤ l.length := by
      intro l
      induction l with
      | nil => simp [List.dropWhile]
      | cons c cs ih =>
        simp only [List.dropWhile]
        cases notStop c
        · exact Nat.le_refl _
        · exact Nat.le_succ_of_le ih
    exact Nat.lt_succ_of_le (h _)
  · simp

/-- Outcome of an operation of the source: a normal value, a Go error
value returned to the caller, or a Go runtime panic. -/
inductive Res (α : Type) where
  | ok (a : α)
  | err (msg : String)
  | panic (msg : String)
  deriving Repr, DecidableEq

/-- Parameter values handed to Exec/Query are opaque interface values;
the source only ever forwards them to the driver, so Int is a sufficient
carrier. -/
abbrev Val := Int

/-- The params argument of getValues (pstmt.go): Go nil, a
map[string]interface value, or a single bare value whose reflect.Kind is
carried alongside. -/
inductive ParamArg where
  | nilArg
  | mapArg (m : List (String × Val))
  | bare (k : Kind) (v : Val)
  deriving DecidableEq, Repr

/-- Go map lookup for the params map in getValues. -/
def lookupParam (p : String) : List (String × Val) → Option Val
  | [] => none
  | (q, v) :: rest => if q = p then some v else lookupParam p rest

/-- The map branch of getValues: values are taken in the statement's
declared parameter order. -/
def getValuesMap (m : List (String × Val)) : List String → Res (List Val)
  | [] => .ok []
  | p :: ps =>
    match lookupParam p m with
    | none => .err ("dbhelper: value for parameter " ++ p ++ " is missing")
    | some v =>
      match getValuesMap m ps with
      | .ok vs => .ok (v :: vs)
      | r => r

/-- getValues (pstmt.go, 2015 version).  The returned Option
distinguishes Go nil from an allocated (possibly empty) values slice.
The bare-value branch writes to index 0 of a slice of length
len(pstmt.params); with zero declared parameters that write is a Go
index-out-of-range panic, kept faithfully. -/
def getValues (stmtParams : List String) (params : ParamArg) : Res (Option (List Val)) :=
  match params with
  | .nilArg =>
    if stmtParams.length = 0 then .ok none
    else .err "dbhelper: values for all parameters are missing"
  | .mapArg m =>
    match getValuesMap m stmtParams with
    | .ok vs => .ok (some vs)
    | .err e => .err e
    | .panic e => .panic e
  | .bare k v =>
    if 1 < stmtParams.length then
      .err "dbhelper: query has more than one parameter, params must be a map"
    else if !checkFieldType k then .err "dbhelper: wrong parameter type"
    else if stmtParams.length = 0 then
      .panic "runtime error: index out of range [0] with length 0"
    else .ok (some [v])

instance exceptDecEq {ε α : Type} [DecidableEq ε] [DecidableEq α] :
    DecidableEq (Except ε α) := fun x y =>
  match x, y with
  | .ok a, .ok b =>
    if h : a = b then isTrue (by rw [h]) else isFalse (fun hh => h (by cases hh; rfl))
  | .error a, .error b =>
    if h : a = b then isTrue (by rw [h]) else isFalse (fun hh => h (by cases hh; rfl))
  | .ok _, .error _ => isFalse (fun hh => Except.noConfusion hh)
  | .error _, .ok _ => isFalse (fun hh => Except.noConfusion hh)

/-- sql.Result as the source consumes it: RowsAffected and LastInsertId,
each either a value or a driver error. -/
structure ExecResultM where
  rowsAffected : Except String Int
  lastInsertId : Except String Int
  deriving DecidableEq, Repr

/-- pstmt.exec (pstmt.go): bind values, run the driver's Exec (the
parameter stmtExec), wrapping a driver error with the module prefix. -/
def execP (stmtParams : List String)
    (stmtExec : Option (List Val) → Except String ExecResultM) (params : ParamArg) :
    Res ExecResultM :=
  match getValues stmtParams params with
  | .err e => .err e
  | .panic e => .panic e
  | .ok values =>
    match stmtExec values with
    | .error e => .err ("dbhelper: " ++ e)
    | .ok res => .ok res

/-- Pstmt.Exec (pstmt.go): returns the affected-row count, or the
sentinel -1 with no error when the driver cannot report the count. -/
def ExecGo (stmtParams : List String)
    (stmtExec : Option (List Val) → Except String ExecResultM) (params : ParamArg) :
    Res Int :=
  match execP stmtParams stmtExec params with
  | .err e => .err e
  | .panic e => .panic e
  | .ok res =>
    match res.rowsAffected with
    | .error _ => .ok (-1)
    | .ok num => .ok num

/-- A result cursor as the source consumes it: the reported column names
(rows.Columns may fail) and the list of rows, each row being the driver
values in column order. -/
structure Cursor where
  columns : Except String (List String)
  rows : List (List Val)

/-- The destination argument i of Pstmt.Query after the reflection
analysis of its shape; each constructor corresponds to one branch of the
source's kind checks.  Struct pointees carry the registry key of their
type. -/
inductive Dest where
  | nilD
  | notPtr
  | ptrNil
  | ptrPtr
  | ptrInterface
  | ptrSliceOfNonPtr
  | ptrSliceOfPtr (key : String) (t : GoType)
  | ptrVal (key : String) (t : GoType)

/-- One row materialized by the query loop: assignments of driver values
to struct field index paths, or a single value scanned into a plain
destination. -/
inductive MappedRow where
  | intoStruct (assigns : List (List Nat × Val))
  | intoScalar (v : Val)
  deriving DecidableEq, Repr

/-- The pointer-collection loop of Pstmt.Query for a struct destination:
fields[i] = pointer to the field at tbl.fields[col].index.  A column
missing from the map makes tbl.fields[col] Go nil and reading .index a
nil-pointer panic; a column position beyond tbl.numField makes fields[i]
an index-out-of-range panic (this second write happens after the map
access, so the nil-pointer panic wins inside one iteration). -/
def buildFieldPtrs (fields : List (String × DbField)) (numField : Nat) :
    List String → Nat → Res (List (List Nat))
  | [], _ => .ok []
  | c :: cs, i =>
    match lookupCol c fields with
    | none => .panic "runtime error: invalid memory address or nil pointer dereference"
    | some f =>
      if numField ≤ i then .panic "runtime error: index out of range"
      else
        match buildFieldPtrs fields numField cs (i + 1) with
        | .ok paths => .ok (f.index :: paths)
        | r => r

/-- Mapping of one result row.  rows.Scan's argument-count check is the
driver behavior modelled here: scanning errors when the number of
destinations differs from the number of columns; driver value-conversion
failures are abstracted away. -/
def mapOneRow (returnStruct : Bool) (tbl : DbTable) (columns : List String)
    (row : List Val) : Res MappedRow :=
  if returnStruct then
    match buildFieldPtrs tbl.fields tbl.numField columns 0 with
    | .err e => .err e
    | .panic e => .panic e
    | .ok paths =>
      if tbl.numField = columns.length ∧ row.length = columns.length then
        .ok (.intoStruct (paths.zip row))
      else .err "dbhelper: sql: wrong number of destination arguments in Scan"
  else
    match columns, row with
    | [_], [v] => .ok (.intoScalar v)
    | _, _ => .err "dbhelper: sql: wrong number of destination arguments in Scan"

/-- The row loop of Pstmt.Query: every row is mapped for a slice
destination; for a non-slice destination the loop breaks after the first
row, leaving the rest of the cursor unread. -/
def queryLoop (returnSlice returnStruct : Bool) (tbl : DbTable) (columns : List String) :
    List (List Val) → Res (List MappedRow)
  | [] => .ok []
  | row :: rest =>
    match mapOneRow returnStruct tbl columns row with
    | .err e => .err e
    | .panic e => .panic e
    | .ok mr =>
      if returnSlice then
        match queryLoop returnSlice returnStruct tbl columns rest with
        | .ok ms => .ok (mr :: ms)
        | r => r
      else .ok [mr]

/-- The placeholder table used when the destination is not a struct (the
source leaves tbl nil and never reads it on that path). -/
def noTable : DbTable := ⟨"", [], none, none, none, 0, 0⟩

/-- The tail of Pstmt.Query after the destination-shape checks: table
lookup (struct destinations only), parameter binding, driver query (the
parameter run), column-name retrieval and the row loop. Returns the
mapped-row count together with the materialization trace. -/
def queryRun (reg : List (String × DbTable)) (stmtParams : List String)
    (run : Option (List Val) → Except String Cursor)
    (returnSlice : Bool) (key : String) (t : GoType) (params : ParamArg) :
    Res (Int × List MappedRow) :=
  let returnStruct : Bool := t.kind == Kind.structK
  let tblRes : Res DbTable :=
    if returnStruct then
      match lookupTable key reg with
      | none => .err "dbhelper: type has no assigned table"
      | some tbl => .ok tbl
    else .ok noTable
  match tblRes with
  | .err e => .err e
  | .panic e => .panic e
  | .ok tbl =>
    match getValues stmtParams params with
    | .err e => .err e
    | .panic e => .panic e
    | .ok values =>
      match run values with
      | .error e => .err ("dbhelper: " ++ e)
      | .ok cursor =>
        match cursor.columns with
        | .error e => .err ("dbhelper: " ++ e)
        | .ok columns =>
          match queryLoop returnSlice returnStruct tbl columns cursor.rows with
          | .err e => .err e
          | .panic e => .panic e
          | .ok ms => .ok ((ms.length : Int), ms)

/-- Pstmt.Query (pstmt.go, 2015 version): the up-front destination-shape
checks in source order, then the execution tail. -/
def QueryGo (reg : List (String × DbTable)) (stmtParams : List String)
    (run : Option (List Val) → Except String Cursor)
    (dest : Dest) (params : ParamArg) : Res (Int × List MappedRow) :=
  match dest with
  | .nilD => .err "dbhelper: cannot use nil to define type"
  | .notPtr => .err "dbhelper: pointer expected"
  | .ptrNil => .err "dbhelper: cannot use pointer to nil"
  | .ptrPtr => .err "dbhelper: cannot use pointer to pointer"
  | .ptrInterface => .err "dbhelper: wrong type of i"
  | .ptrSliceOfNonPtr => .err "dbhelper: pointer to a slice of pointers expected"
  | .ptrSliceOfPtr key t => queryRun reg stmtParams run true key t params
  | .ptrVal key t => queryRun reg stmtParams run false key t params

/-- A record instance as reflection sees it in Insert: the integer value
stored at each field index path, plus whether the reflect.Value is
addressable (true when the caller passed a pointer, false when the record
was passed by value, leaving reflect with an unaddressable copy). -/
structure InstVal where
  get : List Nat → Int
  addressable : Bool

/-- reflect.Value.SetInt: mutates the field in place, or panics on an
unaddressable value. -/
def setIntField (v : InstVal) (path : List Nat) (x : Int) : Res InstVal :=
  if v.addressable then
    .ok ⟨fun q => if q = path then x else v.get q, v.addressable⟩
  else .panic "reflect: reflect.Value.SetInt using unaddressable value"

/-- prepareParams (dbhelper.go): the params map built from every mapped
field of the instance, keyed by column name. -/
def prepareParamsMap (tbl : DbTable) (v : InstVal) : List (String × Val) :=
  tbl.fields.map (fun cf => (cf.2.column, v.get cf.2.index))

/-- Go map assignment params[c] = x. -/
def updateParam (c : String) (x : Val) : List (String × Val) → List (String × Val)
  | [] => [(c, x)]
  | (c', v) :: rest => if c' = c then (c, x) :: rest else (c', v) :: updateParam c x rest

/-- The dialect capability probed by Insert: either a custom insert
routine (hasCustomInsert) or the standard execute-then-LastInsertId path.
Both consume the finished params map; the inner statement machinery of
tbl.insertQuery.exec is part of the external driver boundary here. -/
inductive InsDialect where
  | customIns (ins : List (String × Val) → Except String Int)
  | standard (exec : List (String × Val) → Except String ExecResultM)

/-- How the generated identifier came back to Insert. -/
inductive IdFetch where
  | fetchErr (e : String)
  | unavailable
  | gotId (id : Int)

/-- The id-producing section of Insert (dbhelper.go): custom dialect
insert, or standard exec followed by res.LastInsertId(); a LastInsertId
failure is the fallback where the source returns nil immediately. -/
def insertGetId : InsDialect → List (String × Val) → IdFetch
  | .customIns ins, ps =>
    match ins ps with
    | .error e => .fetchErr e
    | .ok id => .gotId id
  | .standard exec, ps =>
    match exec ps with
    | .error e => .fetchErr ("dbhelper: " ++ e)
    | .ok res =>
      match res.lastInsertId with
      | .error _ => .unavailable
      | .ok id => .gotId id

/-- The params map Insert hands to the dialect: every mapped field of
the instance, with the created/modified columns overwritten by the entry
timestamp. -/
def insertParams (tbl : DbTable) (now : Int) (v : InstVal) : List (String × Val) :=
  let params0 := prepareParamsMap tbl v
  let params1 :=
    match tbl.createdField with
    | some cf => updateParam cf.column now params0
    | none => params0
  match tbl.modifiedField with
  | some mf => updateParam mf.column now params1
  | none => params1

/-- Insert (dbhelper.go, 2015 version): build the params map, stamp
created/modified with the current time, run the dialect insert, then
mutate the id/created/modified fields of the instance in place.  On the
fallback path (LastInsertId unavailable) the source returns nil before
any of the three SetInt calls.  now is the timestamp taken at entry. -/
def InsertGo (reg : List (String × DbTable)) (key : String) (dialect : InsDialect)
    (now : Int) (v : InstVal) : Res InstVal :=
  match lookupTable key reg with
  | none => .err "dbhelper: type has no assigned table"
  | some tbl =>
    match insertGetId dialect (insertParams tbl now v) with
    | .fetchErr e => .err e
    | .unavailable => .ok v
    | .gotId id =>
      match tbl.idField with
      | none => .panic "runtime error: invalid memory address or nil pointer dereference"
      | some idf =>
        match setIntField v idf.index id with
        | .err e => .err e
        | .panic e => .panic e
        | .ok v1 =>
          match (match tbl.createdField with
                 | some cf => setIntField v1 cf.index now
                 | none => .ok v1) with
          | .err e => .err e
          | .panic e => .panic e
          | .ok v2 =>
            match (match tbl.modifiedField with
                   | some mf => setIntField v2 mf.index now
                   | none => .ok v2) with
            | .err e => .err e
            | .panic e => .panic e
            | .ok v3 => .ok v3

/-- True exactly on the panic outcome. -/
def isPanicRes {α : Type} : Res α → Bool
  | .panic _ => true
  | _ => false

/-- True exactly on the error-value outcome. -/
def isErrRes {α : Type} : Res α → Bool
  | .err _ => true
  | _ => false

/-- True exactly on the success outcome. -/
def isOkRes {α : Type} : Res α → Bool
  | .ok _ => true
  | _ => false

/-- The value stored at path p in the instance returned by a successful
Insert (none when Insert did not return success). -/
def instAfter (r : Res InstVal) (p : List Nat) : Option Int :=
  match r with
  | .ok v => some (v.get p)
  | _ => none

/-- 0 for none, 1 for some: the number of descriptors cached in an
optional descriptor slot of a table. -/
def optCount {α : Type} : Option α → Nat
  | none => 0
  | some _ => 1

/-- Number of descriptors in a parsed list carrying the id flag. -/
def countIdDs (ds : List DbField) : Nat := (ds.filter (fun f => f.id)).length

/-- Number of descriptors in a parsed list carrying the created flag. -/
def countCreatedDs (ds : List DbField) : Nat := (ds.filter (fun f => f.created)).length

/-- Concrete record type for evaluating the skip option: an id,auto field
and a field tagged dbopt skip. -/
def skipDemoType : GoType :=
  GoType.structT (GoFields.cons ⟨"Id", "id", "id,auto", false, ""⟩ (GoType.prim Kind.int64)
    (GoFields.cons ⟨"S", "s", "skip", false, ""⟩ (GoType.prim Kind.int64) GoFields.nil))

/-- Concrete descriptors and tables used by the concrete evaluations. -/
def fIdC : DbField := ⟨[0], "id", true, true, false, false⟩

def fTextC : DbField := ⟨[1], "a", false, false, false, false⟩

def fCreatedC : DbField := ⟨[1], "c", false, false, true, false⟩

def fModifiedC : DbField := ⟨[2], "m", false, false, false, true⟩

def tblQueryC : DbTable := ⟨"t", [("id", fIdC), ("a", fTextC)], some fIdC, none, none, 2, 1⟩

def tblInsC : DbTable :=
  ⟨"t", [("id", fIdC), ("c", fCreatedC), ("m", fModifiedC)], some fIdC, some fCreatedC,
    some fModifiedC, 3, 1⟩

def tblIdOnlyC : DbTable := ⟨"t", [("id", fIdC)], some fIdC, none, none, 1, 1⟩

/-- A record type with one plain field and no id option. -/
def noIdType : GoType :=
  GoType.structT (GoFields.cons ⟨"A", "a", "", false, ""⟩ (GoType.prim Kind.int64) GoFields.nil)

/-- A record type with an id field and two fields carrying created. -/
def twoCreatedType : GoType :=
  GoType.structT (GoFields.cons ⟨"Id", "id", "id", false, ""⟩ (GoType.prim Kind.int64)
    (GoFields.cons ⟨"C1", "c1", "created", false, ""⟩ (GoType.prim Kind.int64)
      (GoFields.cons ⟨"C2", "c2", "created", false, ""⟩ (GoType.prim Kind.int64) GoFields.nil)))

/-- C1: the claim says a field whose option annotation contains the
token skip produces no field descriptor, contributes no column and is
not counted.  The source's switch case for skip only skips the option
token (Go continue), so the field is mapped like a normal column: for
the concrete record type with an id,auto field and a skip-tagged field,
newDbTable yields a table whose column map contains the skipped field
under column s and whose field count is 2.  This contradicts the claim
(and the repository README, which documents skip as excluding the
field), exhibiting the code bug at this input. -/
theorem C1_skip_option_field_still_mapped :
    newDbTable (fun _ => Except.ok ()) skipDemoType "t" =
      Except.ok ⟨"t", [("id", ⟨[0], "id", true, true, false, false⟩),
        ("s", ⟨[1], "s", false, false, false, false⟩)],
        some ⟨[0], "id", true, true, false, false⟩, none, none, 2, 1⟩ := by decide

/-- C3 counterexample: the claim says that for a non-nil, non-map
parameter value, every case other than (exactly one declared parameter
and a supported scalar kind) returns an arity or type error value.  On
a statement declaring zero parameters and a supported bare value, the
source instead writes to index 0 of a zero-length values slice: a
runtime panic, not an error value. -/
theorem C3_zero_params_bare_value_cex :
    getValues [] (ParamArg.bare Kind.int64 5) =
      Res.panic "runtime error: index out of range [0] with length 0" := rfl

/-- C3 amended: binding a bare (non-map) value succeeds exactly when the
statement declares one parameter and the value's kind is supported; more
than one declared parameter is an arity error; an unsupported kind (with
at most one declared parameter) is a type error; but zero declared
parameters with a supported kind is an index-out-of-range panic, not an
error value. -/
theorem C3_bare_value_binding (stmtParams : List String) (k : Kind) (v : Val) :
    (stmtParams.length = 1 → checkFieldType k = true →
      getValues stmtParams (ParamArg.bare k v) = .ok (some [v])) ∧
    (1 < stmtParams.length →
      getValues stmtParams (ParamArg.bare k v) =
        .err "dbhelper: query has more than one parameter, params must be a map") ∧
    (¬ 1 < stmtParams.length → checkFieldType k = false →
      getValues stmtParams (ParamArg.bare k v) = .err "dbhelper: wrong parameter type") ∧
    (stmtParams.length = 0 → checkFieldType k = true →
      getValues stmtParams (ParamArg.bare k v) =
        .panic "runtime error: index out of range [0] with length 0") := by
  refine ⟨fun h1 h2 => ?_, fun h1 => ?_, fun h1 h2 => ?_, fun h1 h2 => ?_⟩
  · simp [getValues, h1, h2]
  · simp [getValues, h1]
  · simp [getValues, h1, h2]
  · simp [getValues, h1, h2]

/-- C3 witness: the positive branch at a concrete input. -/
theorem C3_bare_value_binding_witness :
    getValues ["p"] (ParamArg.bare Kind.int64 5) = .ok (some [5]) :=
  (C3_bare_value_binding ["p"] Kind.int64 5).1 (by decide) (by decide)

/-- C9: when the bound statement executes successfully, Exec returns the
affected-row count when the driver reports one, and the sentinel -1 with
no error value when RowsAffected fails. -/
theorem C9_exec_rowcount_sentinel (stmtParams : List String)
    (stmtExec : Option (List Val) → Except String ExecResultM) (params : ParamArg)
    (vs : Option (List Val)) (res : ExecResultM)
    (hv : getValues stmtParams params = .ok vs)
    (hx : stmtExec vs = Except.ok res) :
    (∀ e, res.rowsAffected = Except.error e →
      ExecGo stmtParams stmtExec params = .ok (-1)) ∧
    (∀ n, res.rowsAffected = Except.ok n →
      ExecGo stmtParams stmtExec params = .ok n) := by
  constructor
  · intro e he
    simp [ExecGo, execP, hv, hx, he]
  · intro n hn
    simp [ExecGo, execP, hv, hx, hn]

/-- C9 witness: a concrete statement whose driver cannot report the
affected-row count yields the sentinel. -/
theorem C9_exec_rowcount_sentinel_witness :
    ExecGo [] (fun _ => Except.ok ⟨Except.error "unsupported", Except.ok 0⟩)
      ParamArg.nilArg = .ok (-1) :=
  (C9_exec_rowcount_sentinel [] (fun _ => Except.ok ⟨Except.error "unsupported", Except.ok 0⟩)
    ParamArg.nilArg none ⟨Except.error "unsupported", Except.ok 0⟩ rfl rfl).1
    "unsupported" rfl

/-- C10: Insert called with a registered record passed by value (the
reflect.Value is an unaddressable copy) does not return an error value:
after the driver reports the generated id, the in-place SetInt on the
identifier field panics. -/
theorem C10_insert_by_value_panics :
    InsertGo [("T", tblIdOnlyC)] "T"
      (InsDialect.standard (fun _ => Except.ok ⟨Except.ok 1, Except.ok 7⟩))
      99 ⟨fun _ => 0, false⟩
    = Res.panic "reflect: reflect.Value.SetInt using unaddressable value" := rfl

/-- C6 counterexample: the claim says a successful insert mutates the
identifier and timestamp fields in place including on the fallback path
where the driver cannot report the generated identifier.  At this
concrete input the driver's LastInsertId fails, Insert returns success
(the result is an ok outcome, witnessed by instAfter returning some),
yet the creation-timestamp field at path [1] still holds its initial 0
instead of the entry timestamp 99. -/
theorem C6_fallback_mutates_nothing_cex :
    instAfter (InsertGo [("T", tblInsC)] "T"
      (InsDialect.standard (fun _ => Except.ok ⟨Except.ok 1, Except.error "unsupported"⟩))
      99 ⟨fun _ => 0, true⟩) [1] = some 0 := rfl

/-- C6 amended: on the path where the dialect reports the generated
identifier, a successful insert mutates the identifier, creation and
modification fields in place; on the fallback path where LastInsertId
fails, Insert returns success with the instance entirely unmodified
(none of the three fields is mutated). -/
theorem C6_insert_field_mutation (reg : List (String × DbTable)) (key : String)
    (dialect : InsDialect) (now : Int) (v : InstVal) (tbl : DbTable)
    (idf cf mf : DbField)
    (htbl : lookupTable key reg = some tbl)
    (hid : tbl.idField = some idf)
    (hcf : tbl.createdField = some cf)
    (hmf : tbl.modifiedField = some mf)
    (haddr : v.addressable = true)
    (hd1 : cf.index ≠ idf.index) (hd2 : mf.index ≠ idf.index) :
    (∀ id, insertGetId dialect (insertParams tbl now v) = .gotId id →
      instAfter (InsertGo reg key dialect now v) idf.index = some id ∧
      instAfter (InsertGo reg key dialect now v) cf.index = some now ∧
      instAfter (InsertGo reg key dialect now v) mf.index = some now) ∧
    (insertGetId dialect (insertParams tbl now v) = .unavailable →
      InsertGo reg key dialect now v = .ok v) := by
  constructor
  · intro id hgot
    have h1 : idf.index ≠ mf.index := fun h => hd2 h.symm
    have h2 : idf.index ≠ cf.index := fun h => hd1 h.symm
    simp [InsertGo, htbl, hgot, hid, hcf, hmf, setIntField, haddr, instAfter, h1, h2]
  · intro hun
    simp [InsertGo, htbl, hun]

/-- C6 witness: concrete normal-path insert mutating all three fields. -/
theorem C6_insert_field_mutation_witness :
    instAfter (InsertGo [("T", tblInsC)] "T"
      (InsDialect.standard (fun _ => Except.ok ⟨Except.ok 1, Except.ok 7⟩))
      99 ⟨fun _ => 0, true⟩) [0] = some 7 ∧
    instAfter (InsertGo [("T", tblInsC)] "T"
      (InsDialect.standard (fun _ => Except.ok ⟨Except.ok 1, Except.ok 7⟩))
      99 ⟨fun _ => 0, true⟩) [1] = some 99 ∧
    instAfter (InsertGo [("T", tblInsC)] "T"
      (InsDialect.standard (fun _ => Except.ok ⟨Except.ok 1, Except.ok 7⟩))
      99 ⟨fun _ => 0, true⟩) [2] = some 99 :=
  (C6_insert_field_mutation [("T", tblInsC)] "T"
    (InsDialect.standard (fun _ => Except.ok ⟨Except.ok 1, Except.ok 7⟩))
    99 ⟨fun _ => 0, true⟩ tblInsC fIdC fCreatedC fModifiedC
    (by decide) (by decide) (by decide) (by decide) rfl
    (by decide) (by decide)).1 7 rfl

/-- Helper: if some reported column is missing from the table's column
map, the pointer-collection loop panics (either on the nil descriptor of
that column or, earlier, on a fields-slice index overflow). -/
theorem buildFieldPtrs_missing_panics (fields : List (String × DbField)) (numField : Nat) :
    ∀ (cols : List String) (i : Nat),
      (∃ c ∈ cols, lookupCol c fields = none) →
      ∃ m, buildFieldPtrs fields numField cols i = .panic m := by
  intro cols
  induction cols with
  | nil =>
    rintro i ⟨c, hc, -⟩
    exact absurd hc (List.not_mem_nil c)
  | cons c cs ih =>
    rintro i ⟨d, hd, hmiss⟩
    rcases List.mem_cons.mp hd with rfl | hdtail
    · exact ⟨"runtime error: invalid memory address or nil pointer dereference",
        by simp [buildFieldPtrs, hmiss]⟩
    · cases hl : lookupCol c fields with
      | none =>
        exact ⟨"runtime error: invalid memory address or nil pointer dereference",
          by simp [buildFieldPtrs, hl]⟩
      | some f =>
        by_cases hb : numField ≤ i
        · exact ⟨"runtime error: index out of range", by simp [buildFieldPtrs, hl, hb]⟩
        · obtain ⟨m, hm⟩ := ih (i + 1) ⟨d, hdtail, hmiss⟩
          exact ⟨m, by simp [buildFieldPtrs, hl, hb, hm]⟩

/-- C2 counterexample: the claim says a result column with no entry in
the column map makes Query return a name-not-found error value.  At this
concrete input (struct destination, result column bogus unknown to the
table) Query instead panics dereferencing the nil descriptor returned by
the map lookup. -/
theorem C2_unknown_column_cex :
    QueryGo [("T", tblQueryC)] [] (fun _ => Except.ok ⟨Except.ok ["bogus"], [[5]]⟩)
      (Dest.ptrVal "T" (GoType.structT GoFields.nil)) ParamArg.nilArg
    = Res.panic "runtime error: invalid memory address or nil pointer dereference" := rfl

/-- C2 amended: for a Query whose destination is a registered record and
whose result set reports a column name missing from the table's column
map, the mapping step is a runtime panic (nil-descriptor dereference),
not an error value returned to the caller. -/
theorem C2_unknown_column_panics (reg : List (String × DbTable)) (ps : List String)
    (run : Option (List Val) → Except String Cursor) (key : String) (t : GoType)
    (params : ParamArg) (tbl : DbTable) (vals : Option (List Val)) (cursor : Cursor)
    (cols : List String) (row : List Val) (rest : List (List Val))
    (hk : t.kind = Kind.structK)
    (htbl : lookupTable key reg = some tbl)
    (hv : getValues ps params = .ok vals)
    (hrun : run vals = Except.ok cursor)
    (hcols : cursor.columns = Except.ok cols)
    (hrows : cursor.rows = row :: rest)
    (hmiss : ∃ c ∈ cols, lookupCol c tbl.fields = none) :
    isPanicRes (QueryGo reg ps run (Dest.ptrVal key t) params) = true ∧
    isErrRes (QueryGo reg ps run (Dest.ptrVal key t) params) = false := by
  obtain ⟨m, hm⟩ := buildFieldPtrs_missing_panics tbl.fields tbl.numField cols 0 hmiss
  have hq : QueryGo reg ps run (Dest.ptrVal key t) params = .panic m := by
    simp [QueryGo, queryRun, hk, htbl, hv, hrun, hcols, hrows, queryLoop, mapOneRow, hm]
  rw [hq]
  exact ⟨rfl, rfl⟩

/-- C2 witness: the amended claim applied at the concrete input of the
counterexample. -/
theorem C2_unknown_column_panics_witness :
    isPanicRes (QueryGo [("T", tblQueryC)] []
      (fun _ => Except.ok ⟨Except.ok ["bogus"], [[5]]⟩)
      (Dest.ptrVal "T" (GoType.structT GoFields.nil)) ParamArg.nilArg) = true ∧
    isErrRes (QueryGo [("T", tblQueryC)] []
      (fun _ => Except.ok ⟨Except.ok ["bogus"], [[5]]⟩)
      (Dest.ptrVal "T" (GoType.structT GoFields.nil)) ParamArg.nilArg) = false :=
  C2_unknown_column_panics [("T", tblQueryC)] []
    (fun _ => Except.ok ⟨Except.ok ["bogus"], [[5]]⟩) "T" (GoType.structT GoFields.nil)
    ParamArg.nilArg tblQueryC none ⟨Except.ok ["bogus"], [[5]]⟩ ["bogus"] [5] []
    rfl (by decide) rfl rfl rfl rfl (by decide)

/-- Helper: the row loop on a slice-of-scalar-pointer destination scans
the single column of every row into a fresh element. -/
theorem queryLoop_scalar_rows (tbl : DbTable) (c : String) (vs : List Val) :
    queryLoop true false tbl [c] (vs.map (fun v => [v])) =
      .ok (vs.map MappedRow.intoScalar) := by
  induction vs with
  | nil => rfl
  | cons v vs ih => simp [queryLoop, mapOneRow, ih]

/-- C4 counterexample: the claim says a destination pointing to a
sequence of pointers to scalars is rejected with an error up front.  At
this concrete input (pointer to a slice of pointers to int64) Query is
not rejected: it binds, executes, and maps the row, returning success
with one scanned value. -/
theorem C4_slice_of_scalar_ptrs_accepted_cex :
    QueryGo [] [] (fun _ => Except.ok ⟨Except.ok ["x"], [[5]]⟩)
      (Dest.ptrSliceOfPtr "K" (GoType.prim Kind.int64)) ParamArg.nilArg
    = Res.ok (1, [MappedRow.intoScalar 5]) := rfl

/-- C4 amended: a non-pointer destination, a pointer to pointer, a
pointer to nil, a pointer to interface, a nil destination and a slice of
non-pointers are each rejected up front with a fixed error, independent
of the parameters and of the driver (hence before any binding or
execution); but a pointer to a slice of pointers to a non-record type is
not rejected: the query executes and each row's single column is scanned
into a fresh element. -/
theorem C4_destination_shape_dispatch (reg : List (String × DbTable)) (ps : List String)
    (run : Option (List Val) → Except String Cursor) (params : ParamArg)
    (key : String) (t : GoType) (c : String) (vs : List Val)
    (cursor : Cursor) (vals : Option (List Val)) :
    (QueryGo reg ps run Dest.nilD params = .err "dbhelper: cannot use nil to define type") ∧
    (QueryGo reg ps run Dest.notPtr params = .err "dbhelper: pointer expected") ∧
    (QueryGo reg ps run Dest.ptrNil params = .err "dbhelper: cannot use pointer to nil") ∧
    (QueryGo reg ps run Dest.ptrPtr params = .err "dbhelper: cannot use pointer to pointer") ∧
    (QueryGo reg ps run Dest.ptrInterface params = .err "dbhelper: wrong type of i") ∧
    (QueryGo reg ps run Dest.ptrSliceOfNonPtr params =
      .err "dbhelper: pointer to a slice of pointers expected") ∧
    (t.kind ≠ Kind.structK →
      getValues ps params = .ok vals →
      run vals = Except.ok cursor →
      cursor.columns = Except.ok [c] →
      cursor.rows = vs.map (fun v => [v]) →
      QueryGo reg ps run (Dest.ptrSliceOfPtr key t) params =
        .ok ((vs.length : Int), vs.map MappedRow.intoScalar)) := by
  refine ⟨rfl, rfl, rfl, rfl, rfl, rfl, fun hk hv hrun hcols hrows => ?_⟩
  have hb : (t.kind == Kind.structK) = false := by
    simp [hk]
  simp [QueryGo, queryRun, hb, hv, hrun, hcols, hrows, queryLoop_scalar_rows]

/-- C4 witness: the acceptance part of the amended claim at a concrete
input with two rows. -/
theorem C4_destination_shape_dispatch_witness :
    QueryGo [] [] (fun _ => Except.ok ⟨Except.ok ["x"], [[5], [6]]⟩)
      (Dest.ptrSliceOfPtr "K" (GoType.prim Kind.int64)) ParamArg.nilArg =
      .ok (2, [MappedRow.intoScalar 5, MappedRow.intoScalar 6]) :=
  (C4_destination_shape_dispatch [] []
    (fun _ => Except.ok ⟨Except.ok ["x"], [[5], [6]]⟩) ParamArg.nilArg
    "K" (GoType.prim Kind.int64) "x" [5, 6]
    ⟨Except.ok ["x"], [[5], [6]]⟩ none).2.2.2.2.2.2
    (by decide) rfl rfl rfl rfl

/-- C8: for a Query whose destination is a single record and whose
result set has at least one row, exactly the first row is mapped into
the instance and the mapped-row count is 1; the remaining rows (rest,
universally quantified and absent from the conclusion) are never
visited. -/
theorem C8_single_record_maps_first_row_only (reg : List (String × DbTable))
    (ps : List String) (run : Option (List Val) → Except String Cursor)
    (key : String) (t : GoType) (params : ParamArg) (tbl : DbTable)
    (vals : Option (List Val)) (cursor : Cursor) (cols : List String)
    (row : List Val) (rest : List (List Val)) (paths : List (List Nat))
    (hk : t.kind = Kind.structK)
    (htbl : lookupTable key reg = some tbl)
    (hv : getValues ps params = .ok vals)
    (hrun : run vals = Except.ok cursor)
    (hcols : cursor.columns = Except.ok cols)
    (hrows : cursor.rows = row :: rest)
    (hbp : buildFieldPtrs tbl.fields tbl.numField cols 0 = .ok paths)
    (hn : tbl.numField = cols.length)
    (hr : row.length = cols.length) :
    QueryGo reg ps run (Dest.ptrVal key t) params =
      .ok (1, [MappedRow.intoStruct (paths.zip row)]) := by
  have hbp' : buildFieldPtrs tbl.fields cols.length cols 0 = .ok paths := hn ▸ hbp
  simp [QueryGo, queryRun, hk, htbl, hv, hrun, hcols, hrows, queryLoop, mapOneRow,
    hbp, hbp', hn, hr]

/-- C8 witness: a three-row result set against a single-record
destination maps only the first row and reports a count of 1. -/
theorem C8_single_record_maps_first_row_only_witness :
    QueryGo [("T", tblQueryC)] []
      (fun _ => Except.ok ⟨Except.ok ["id", "a"], [[7, 8], [9, 10], [11, 12]]⟩)
      (Dest.ptrVal "T" (GoType.structT GoFields.nil)) ParamArg.nilArg =
      .ok (1, [MappedRow.intoStruct [([0], 7), ([1], 8)]]) :=
  C8_single_record_maps_first_row_only [("T", tblQueryC)] []
    (fun _ => Except.ok ⟨Except.ok ["id", "a"], [[7, 8], [9, 10], [11, 12]]⟩)
    "T" (GoType.structT GoFields.nil) ParamArg.nilArg tblQueryC none
    ⟨Except.ok ["id", "a"], [[7, 8], [9, 10], [11, 12]]⟩ ["id", "a"]
    [7, 8] [[9, 10], [11, 12]] [[0], [1]]
    rfl (by decide) rfl rfl rfl rfl (by decide) (by decide) (by decide)

/-- Helper: a successful option-parsing run sets the id flag exactly
when the token list carries id. -/
theorem applyOpts_id_flag : ∀ (os : List String) (f f' : DbField),
    applyOpts os f = .ok f' → f'.id = (f.id || hasTok "id" os) := by
  intro os
  induction os with
  | nil =>
    intro f f' h
    cases h
    simp [hasTok]
  | cons o os ih =>
    intro f f' h
    simp only [applyOpts] at h
    split_ifs at h with h1 h2 h3 h4 h5
    · subst h1; rw [ih _ _ h]; simp [hasTok]
    · subst h2; rw [ih _ _ h]; simp [hasTok]
    · subst h3; rw [ih _ _ h]; simp [hasTok]
    · subst h4; rw [ih _ _ h]; simp [hasTok]
    · subst h5; rw [ih _ _ h]; simp [hasTok]

/-- Helper: a successful option-parsing run sets the created flag
exactly when the token list carries created. -/
theorem applyOpts_created_flag : ∀ (os : List String) (f f' : DbField),
    applyOpts os f = .ok f' → f'.created = (f.created || hasTok "created" os) := by
  intro os
  induction os with
  | nil =>
    intro f f' h
    cases h
    simp [hasTok]
  | cons o os ih =>
    intro f f' h
    simp only [applyOpts] at h
    split_ifs at h with h1 h2 h3 h4 h5
    · subst h1; rw [ih _ _ h]; simp [hasTok]
    · subst h2; rw [ih _ _ h]; simp [hasTok]
    · subst h3; rw [ih _ _ h]; simp [hasTok]
    · subst h4; rw [ih _ _ h]; simp [hasTok]
    · subst h5; rw [ih _ _ h]; simp [hasTok]

/-- Helper: index prefixing leaves the flag counts of a descriptor list
unchanged. -/
theorem countIdDs_prefixIndex_map (p : Nat) (ds : List DbField) :
    countIdDs (ds.map (prefixIndex p)) = countIdDs ds := by
  induction ds with
  | nil => rfl
  | cons d ds ih =>
    simp only [List.map_cons, countIdDs, List.filter, prefixIndex] at ih ⊢
    cases hid : d.id <;> simpa [hid] using ih

theorem countCreatedDs_prefixIndex_map (p : Nat) (ds : List DbField) :
    countCreatedDs (ds.map (prefixIndex p)) = countCreatedDs ds := by
  induction ds with
  | nil => rfl
  | cons d ds ih =>
    simp only [List.map_cons, countCreatedDs, List.filter, prefixIndex] at ih ⊢
    cases hc : d.created <;> simpa [hc] using ih

/-- Helper: flag counts are additive under append. -/
theorem countIdDs_append (ds1 ds2 : List DbField) :
    countIdDs (ds1 ++ ds2) = countIdDs ds1 + countIdDs ds2 := by
  simp [countIdDs, List.filter_append]

theorem countCreatedDs_append (ds1 ds2 : List DbField) :
    countCreatedDs (ds1 ++ ds2) = countCreatedDs ds1 + countCreatedDs ds2 := by
  simp [countCreatedDs, List.filter_append]

mutual

/-- Helper: a successfully parsed field contributes exactly as many
id-flagged (resp. created-flagged) descriptors as the count of id
(resp. created) tokens on it. -/
theorem parseField_flag_count (pos : Nat) (m : FieldMeta) (t : GoType)
    (ds : List DbField) (h : parseField pos m t = .ok ds) :
    countIdDs ds = countTokField "id" m t ∧
    countCreatedDs ds = countTokField "created" m t := by
  unfold parseField at h
  by_cases ha : m.anonymous = true
  · rw [if_pos ha] at h
    cases t with
    | prim k => cases h
    | structT fs =>
      replace h : (match parseFieldList fs 0 with
        | .error e => Except.error e
        | .ok ds0 => Except.ok (ds0.map (prefixIndex pos))) = .ok ds := h
      cases hfs : parseFieldList fs 0 with
      | error e => rw [hfs] at h; cases h
      | ok ds0 =>
        rw [hfs] at h
        cases h
        have hrec := parseFieldList_flag_count fs 0 ds0 hfs
        refine ⟨?_, ?_⟩
        · rw [countIdDs_prefixIndex_map, hrec.1]
          simp [countTokField, ha, countTok]
        · rw [countCreatedDs_prefixIndex_map, hrec.2]
          simp [countTokField, ha, countTok]
  · rw [if_neg ha] at h
    by_cases hp : m.pkgPath ≠ ""
    · rw [if_pos hp] at h
      cases h
      simp [countIdDs, countCreatedDs, countTokField, ha, hp]
    · rw [if_neg hp] at h
      by_cases hk : (!checkFieldType t.kind) = true
      · rw [if_pos hk] at h; cases h
      · rw [if_neg hk] at h
        by_cases hq : m.tagDbopt = ""
        · rw [if_pos hq] at h
          cases h
          simp [countIdDs, countCreatedDs, countTokField, ha, hp, hq, hasOptToken,
            optTokens, splitComma, hasTok]
        · rw [if_neg hq] at h
          cases hao : applyOpts (optTokens m.tagDbopt)
              ⟨[pos], if m.tagDb = "" then m.fname else m.tagDb,
                false, false, false, false⟩ with
          | error e => rw [hao] at h; cases h
          | ok fF =>
            rw [hao] at h
            cases h
            have hid := applyOpts_id_flag _ _ _ hao
            have hcr := applyOpts_created_flag _ _ _ hao
            simp only [Bool.false_or] at hid hcr
            have e1 : countIdDs [fF] = if fF.id then 1 else 0 := by
              cases hb : fF.id <;> simp [countIdDs, List.filter, hb]
            have e2 : countCreatedDs [fF] = if fF.created then 1 else 0 := by
              cases hb : fF.created <;> simp [countCreatedDs, List.filter, hb]
            refine ⟨?_, ?_⟩
            · rw [e1, hid]
              simp [countTokField, ha, hp, hasOptToken]
            · rw [e2, hcr]
              simp [countTokField, ha, hp, hasOptToken]

/-- Helper: the same count relation for a whole field list. -/
theorem parseFieldList_flag_count (fs : GoFields) (i : Nat) (ds : List DbField)
    (h : parseFieldList fs i = .ok ds) :
    countIdDs ds = countTokList "id" fs ∧
    countCreatedDs ds = countTokList "created" fs := by
  match fs, h with
  | .nil, h =>
    cases h
    exact ⟨rfl, rfl⟩
  | .cons m t rest, h =>
    unfold parseFieldList at h
    cases hf : parseField i m t with
    | error e => rw [hf] at h; cases h
    | ok ds1 =>
      rw [hf] at h
      cases hr : parseFieldList rest (i + 1) with
      | error e => rw [hr] at h; cases h
      | ok ds2 =>
        rw [hr] at h
        cases h
        have h1 := parseField_flag_count i m t ds1 hf
        have h2 := parseFieldList_flag_count rest (i + 1) ds2 hr
        constructor
        · rw [countIdDs_append, h1.1, h2.1]
          simp [countTokList, countTokField]
        · rw [countCreatedDs_append, h1.2, h2.2]
          simp [countTokList, countTokField]

end

/-- Helper: the modified-slot step leaves the id and created slots
untouched. -/
theorem addFieldModified_slots (tbl : DbTable) (f : DbField) (tbl' : DbTable)
    (h : addFieldToTable.addFieldModified tbl f = .ok tbl') :
    tbl'.idField = tbl.idField ∧ tbl'.createdField = tbl.createdField := by
  unfold addFieldToTable.addFieldModified at h
  split_ifs at h with h1 h2
  · cases h; exact ⟨rfl, rfl⟩
  · cases h; exact ⟨rfl, rfl⟩

/-- Helper: the created-slot step leaves the id slot untouched and adds
one to the created-slot count exactly when the descriptor carries the
created flag. -/
theorem addFieldCreated_slots (tbl : DbTable) (f : DbField) (tbl' : DbTable)
    (h : addFieldToTable.addFieldCreated tbl f = .ok tbl') :
    tbl'.idField = tbl.idField ∧
    optCount tbl'.createdField =
      optCount tbl.createdField + (if f.created then 1 else 0) := by
  unfold addFieldToTable.addFieldCreated at h
  split_ifs at h with h1 h2
  · obtain ⟨hi, hc⟩ := addFieldModified_slots _ _ _ h
    have hnone : tbl.createdField = none := Option.not_isSome_iff_eq_none.mp h2
    refine ⟨hi, ?_⟩
    rw [hc, hnone]
    simp [optCount, h1]
  · obtain ⟨hi, hc⟩ := addFieldModified_slots _ _ _ h
    refine ⟨hi, ?_⟩
    rw [hc]
    simp [h1]

/-- Helper: one successful inner-loop step adds one to the id-slot and
created-slot counts exactly when the descriptor carries the id and
created flags respectively. -/
theorem addFieldId_counts (tbl : DbTable) (f : DbField) (tbl' : DbTable)
    (h : addFieldToTable.addFieldId tbl f = .ok tbl') :
    optCount tbl'.idField = optCount tbl.idField + (if f.id then 1 else 0) ∧
    optCount tbl'.createdField =
      optCount tbl.createdField + (if f.created then 1 else 0) := by
  unfold addFieldToTable.addFieldId at h
  split_ifs at h with hid hsome
  · obtain ⟨hi, hc⟩ := addFieldCreated_slots _ _ _ h
    have hnone : tbl.idField = none := Option.not_isSome_iff_eq_none.mp hsome
    constructor
    · rw [hi]
      simp [optCount, hnone, hid]
    · simpa using hc
  · obtain ⟨hi, hc⟩ := addFieldCreated_slots _ _ _ h
    constructor
    · rw [hi]
      simp [hid]
    · simpa using hc

/-- Helper: one successful inner-loop step adds one to the id-slot and
created-slot counts exactly when the descriptor carries the id and
created flags respectively. -/
theorem addFieldToTable_counts (tbl : DbTable) (f : DbField) (tbl' : DbTable)
    (h : addFieldToTable tbl f = .ok tbl') :
    optCount tbl'.idField = optCount tbl.idField + (if f.id then 1 else 0) ∧
    optCount tbl'.createdField =
      optCount tbl.createdField + (if f.created then 1 else 0) := by
  unfold addFieldToTable at h
  by_cases hdup : (lookupCol f.column tbl.fields).isSome = true
  · rw [if_pos hdup] at h
    cases h
  · rw [if_neg hdup] at h
    simpa using addFieldId_counts _ _ _ h

/-- Helper: the inner loop of newDbTable accumulates the flag counts of
the descriptor list into the id and created slots. -/
theorem addFields_counts : ∀ (ds : List DbField) (tbl tbl' : DbTable),
    addFields tbl ds = .ok tbl' →
    optCount tbl'.idField = optCount tbl.idField + countIdDs ds ∧
    optCount tbl'.createdField = optCount tbl.createdField + countCreatedDs ds := by
  intro ds
  induction ds with
  | nil =>
    intro tbl tbl' h
    cases h
    simp [countIdDs, countCreatedDs]
  | cons d ds ih =>
    intro tbl tbl' h
    unfold addFields at h
    cases ha : addFieldToTable tbl d with
    | error e => rw [ha] at h; cases h
    | ok tblm =>
      rw [ha] at h
      obtain ⟨h1, h2⟩ := addFieldToTable_counts _ _ _ ha
      obtain ⟨h3, h4⟩ := ih _ _ h
      constructor
      · rw [h3, h1]
        cases hb : d.id
        · simp [countIdDs, List.filter, hb]
        · simp [countIdDs, List.filter, hb]
          omega
      · rw [h4, h2]
        cases hb : d.created
        · simp [countCreatedDs, List.filter, hb]
        · simp [countCreatedDs, List.filter, hb]
          omega

/-- Helper: the outer loop of newDbTable accumulates the token counts of
the field list into the id and created slots. -/
theorem newDbTableLoop_counts (fs : GoFields) : ∀ (i : Nat) (tbl tbl' : DbTable),
    newDbTableLoop fs i tbl = .ok tbl' →
    optCount tbl'.idField = optCount tbl.idField + countTokList "id" fs ∧
    optCount tbl'.createdField =
      optCount tbl.createdField + countTokList "created" fs := by
  match fs with
  | .nil =>
    intro i tbl tbl' h
    cases h
    simp [countTokList]
  | .cons m t rest =>
    intro i tbl tbl' h
    unfold newDbTableLoop at h
    cases hf : parseField i m t with
    | error e => rw [hf] at h; cases h
    | ok ds =>
      rw [hf] at h
      replace h : (match addFields tbl ds with
        | .error e => Except.error e
        | .ok tblm => newDbTableLoop rest (i + 1) tblm) = .ok tbl' := h
      cases ha : addFields tbl ds with
      | error e => rw [ha] at h; cases h
      | ok tblm =>
        rw [ha] at h
        obtain ⟨c1, c2⟩ := parseField_flag_count i m t ds hf
        obtain ⟨a1, a2⟩ := addFields_counts ds tbl tblm ha
        obtain ⟨r1, r2⟩ := newDbTableLoop_counts rest (i + 1) tblm tbl' h
        constructor
        · rw [r1, a1, c1]
          simp [countTokList, countTokField]
          omega
        · rw [r2, a2, c2]
          simp [countTokList, countTokField]
          omega

/-- Helper: a successful registration requires at least one id token and
at most one created token on the record type. -/
theorem newDbTable_token_bounds (prep : DbTable → Except String Unit) (t : GoType)
    (name : String) (tbl : DbTable) (h : newDbTable prep t name = .ok tbl) :
    1 ≤ countTok "id" t ∧ countTok "created" t ≤ 1 := by
  unfold newDbTable at h
  cases t with
  | prim k => cases h
  | structT fs =>
    replace h : (match newDbTableLoop fs 0 ⟨name, [], none, none, none, 0, 0⟩ with
      | .error e => Except.error e
      | .ok tbl0 =>
        if tbl0.numField = 0 then Except.error "dbhelper: structure type has no exported fields"
        else if tbl0.idField.isNone then
          Except.error "dbhelper: structure type has no field with option id"
        else
          match prep tbl0 with
          | .error e => Except.error e
          | .ok _ => Except.ok tbl0) = .ok tbl := h
    cases hl : newDbTableLoop fs 0 ⟨name, [], none, none, none, 0, 0⟩ with
    | error e => rw [hl] at h; cases h
    | ok tbl0 =>
      rw [hl] at h
      replace h : (if tbl0.numField = 0 then
          Except.error "dbhelper: structure type has no exported fields"
        else if tbl0.idField.isNone = true then
          Except.error "dbhelper: structure type has no field with option id"
        else
          match prep tbl0 with
          | .error e => Except.error e
          | .ok _ => Except.ok tbl0) = .ok tbl := h
      obtain ⟨c1, c2⟩ := newDbTableLoop_counts fs 0 _ tbl0 hl
      by_cases h0 : tbl0.numField = 0
      · rw [if_pos h0] at h
        cases h
      · rw [if_neg h0] at h
        by_cases hidn : tbl0.idField.isNone = true
        · rw [if_pos hidn] at h
          cases h
        · rw [if_neg hidn] at h
          have hid : optCount tbl0.idField = 1 := by
            cases hif : tbl0.idField
            · rw [hif] at hidn; simp [Option.isNone] at hidn
            · simp [optCount]
          have hcb : optCount tbl0.createdField ≤ 1 := by
            cases tbl0.createdField <;> simp [optCount]
          rw [show optCount (⟨name, [], none, none, none, 0, 0⟩ : DbTable).idField = 0 from rfl,
            Nat.zero_add] at c1
          rw [show optCount (⟨name, [], none, none, none, 0, 0⟩ : DbTable).createdField = 0 from
            rfl, Nat.zero_add] at c2
          have hin : countTok "id" (GoType.structT fs) = countTokList "id" fs := rfl
          have hcn : countTok "created" (GoType.structT fs) = countTokList "created" fs := rfl
          constructor
          · rw [hin, ← c1, hid]
          · rw [hcn, ← c2]
            exact hcb

/-- C7: registering a record type with zero fields carrying the id
option, or with two (or more) fields carrying the created option, fails
(AddTable reports an error) and returns the registry exactly as it was
before the call. -/
theorem C7_bad_declaration_leaves_registry (prep : DbTable → Except String Unit)
    (reg : List (String × DbTable)) (key : String) (t : GoType) (name : String)
    (hbad : countTok "id" t = 0 ∨ 2 ≤ countTok "created" t) :
    (AddTable prep reg key t name).1 = reg ∧
    (AddTable prep reg key t name).2.isSome = true := by
  unfold AddTable
  cases hl : lookupTable key reg with
  | some tbl => exact ⟨rfl, rfl⟩
  | none =>
    by_cases hn : name = ""
    · rw [if_pos hn]
      exact ⟨rfl, rfl⟩
    · rw [if_neg hn]
      cases ht : newDbTable prep t name with
      | error e => exact ⟨rfl, rfl⟩
      | ok tbl =>
        obtain ⟨b1, b2⟩ := newDbTable_token_bounds prep t name tbl ht
        rcases hbad with hb | hb <;> omega

/-- C7 witness: both bad declarations at concrete record types leave a
concrete registry unchanged and report an error. -/
theorem C7_bad_declaration_leaves_registry_witness :
    ((AddTable (fun _ => Except.ok ()) [("U", tblQueryC)] "K" noIdType "t").1 =
        [("U", tblQueryC)] ∧
      (AddTable (fun _ => Except.ok ()) [("U", tblQueryC)] "K" noIdType "t").2.isSome =
        true) ∧
    ((AddTable (fun _ => Except.ok ()) [("U", tblQueryC)] "K" twoCreatedType "t").1 =
        [("U", tblQueryC)] ∧
      (AddTable (fun _ => Except.ok ()) [("U", tblQueryC)] "K" twoCreatedType "t").2.isSome =
        true) :=
  ⟨C7_bad_declaration_leaves_registry (fun _ => Except.ok ()) [("U", tblQueryC)] "K"
      noIdType "t" (Or.inl (by decide)),
    C7_bad_declaration_leaves_registry (fun _ => Except.ok ()) [("U", tblQueryC)] "K"
      twoCreatedType "t" (Or.inr (by decide))⟩

/-- Helper: a list is a prefix of itself followed by anything. -/
theorem isPrefixOf_append_self : ∀ (l r : List Char), l.isPrefixOf (l ++ r) = true := by
  intro l
  induction l with
  | nil => intro r; simp [List.isPrefixOf]
  | cons a as ih => intro r; simp [List.isPrefixOf, ih]

/-- Helper: a colon-led token is not a prefix of a list starting with a
non-colon character. -/
theorem isPrefixOf_cons_ne (tok : List Char) (c : Char) (rest : List Char) (hc : c ≠ ':') :
    (':' :: tok).isPrefixOf (c :: rest) = false := by
  show ((':' == c) && tok.isPrefixOf rest) = false
  have h1 : (':' == c) = false := beq_eq_false_iff_ne.mpr (Ne.symm hc)
  rw [h1, Bool.false_and]

/-- Helper: dropping the length of the left part of an append. -/
theorem drop_len_append (l1 l2 : List Char) : (l1 ++ l2).drop l1.length = l2 := by
  induction l1 with
  | nil => rfl
  | cons a as ih => simp [ih]

/-- Helper: dropWhile never lengthens a list. -/
theorem dropWhile_len_le (p : Char → Bool) (l : List Char) :
    (l.dropWhile p).length ≤ l.length := by
  induction l with
  | nil => simp [List.dropWhile]
  | cons c cs ih =>
    simp only [List.dropWhile]
    cases p c
    · exact Nat.le_refl _
    · exact Nat.le_succ_of_le ih

/-- Helper: when the text before a colon-led token contains no colon, the
first occurrence of the token is that exact occurrence, so the source's
replace-first-occurrence step rewrites the intended spot. -/
theorem replaceFirst_at_colon (tok suf new : List Char) :
    ∀ pre : List Char, ':' ∉ pre →
      replaceFirst (pre ++ (':' :: tok) ++ suf) (':' :: tok) new = pre ++ new ++ suf := by
  intro pre
  induction pre with
  | nil =>
    intro _
    show replaceFirst ((':' :: tok) ++ suf) (':' :: tok) new = new ++ suf
    rw [List.cons_append]
    simp only [replaceFirst]
    have hpre : (':' :: tok).isPrefixOf (':' :: (tok ++ suf)) = true :=
      isPrefixOf_append_self (':' :: tok) suf
    rw [if_pos hpre]
    have hd : (':' :: (tok ++ suf)).drop (':' :: tok).length = suf :=
      drop_len_append (':' :: tok) suf
    rw [hd]
  | cons a pre ih =>
    intro hnc
    have ha : a ≠ ':' := fun h => hnc (h ▸ List.mem_cons_self a pre)
    have htail : ':' ∉ pre := fun h => hnc (List.mem_cons_of_mem a h)
    show replaceFirst ((a :: pre) ++ (':' :: tok) ++ suf) (':' :: tok) new
        = (a :: pre) ++ new ++ suf
    rw [show (a :: pre) ++ (':' :: tok) ++ suf = a :: (pre ++ (':' :: tok) ++ suf) from by
      simp]
    simp only [replaceFirst]
    have hcond : (':' :: tok).isPrefixOf (a :: (pre ++ (':' :: tok) ++ suf)) = false :=
      isPrefixOf_cons_ne tok a _ ha
    rw [if_neg (by rw [hcond]; exact Bool.false_ne_true)]
    rw [ih htail]
    simp

/-- Helper: the iterated replace-first loop of Prepare agrees with the
in-place left-to-right rewrite whenever the already-rewritten text
contains no colon; the induction carries the rewritten prefix acc. -/
theorem prepareLoop_eq_spec (ph : Nat → List Char) (hph : ∀ n, ':' ∉ ph n) :
    ∀ (N : Nat) (rest : List Char), rest.length ≤ N →
      ∀ (i : Nat) (acc : List Char), ':' ∉ acc →
      prepareLoop ph i (findAllParams rest) (acc ++ rest) =
        Option.map (fun r => (acc ++ r.1, r.2)) (prepareSpec ph i rest) := by
  intro N
  induction N with
  | zero =>
    intro rest hlen i acc hacc
    have hnil : rest = [] := List.length_eq_zero.mp (Nat.le_zero.mp hlen)
    subst hnil
    simp [findAllParams, prepareLoop, prepareSpec]
  | succ N ih =>
    intro rest hlen i acc hacc
    cases rest with
    | nil => simp [findAllParams, prepareLoop, prepareSpec]
    | cons c cs =>
      by_cases hc : c = ':'
      · subst hc
        rw [show findAllParams (':' :: cs) =
            (':' :: cs.takeWhile notStop) :: findAllParams (cs.dropWhile notStop) from by
          simp [findAllParams]]
        by_cases htok : (cs.takeWhile notStop).length = 0
        · have hlt : (':' :: cs.takeWhile notStop).length < 2 := by
            simp [htok]
          rw [show prepareSpec ph i (':' :: cs) = none from by
            simp [prepareSpec, htok]]
          simp [prepareLoop, htok]
        · have hlt : ¬ (':' :: cs.takeWhile notStop).length < 2 := by
            simp only [List.length_cons]
            omega
          have hsplit : acc ++ ':' :: cs =
              acc ++ (':' :: cs.takeWhile notStop) ++ cs.dropWhile notStop := by
            rw [List.append_assoc]
            rw [show (':' :: cs.takeWhile notStop) ++ cs.dropWhile notStop =
              ':' :: (cs.takeWhile notStop ++ cs.dropWhile notStop) from rfl]
            rw [List.takeWhile_append_dropWhile]
          have hrepl := replaceFirst_at_colon (cs.takeWhile notStop)
            (cs.dropWhile notStop) (ph i) acc hacc
          have hacc' : ':' ∉ acc ++ ph i := by
            intro hmem
            rcases List.mem_append.mp hmem with hmem | hmem
            · exact hacc hmem
            · exact hph i hmem
          have hlen' : (cs.dropWhile notStop).length ≤ N := by
            have := dropWhile_len_le notStop cs
            simp only [List.length_cons] at hlen
            omega
          have hih := ih (cs.dropWhile notStop) hlen' (i + 1) (acc ++ ph i) hacc'
          simp only [prepareLoop, hlt, if_neg hlt]
          rw [hsplit, hrepl]
          rw [hih]
          rw [show prepareSpec ph i (':' :: cs) =
              (match prepareSpec ph (i + 1) (cs.dropWhile notStop) with
               | none => none
               | some (q, names) =>
                 some (ph i ++ q, cs.takeWhile notStop :: names)) from by
            simp [prepareSpec, htok]]
          cases hspec : prepareSpec ph (i + 1) (cs.dropWhile notStop) with
          | none => simp
          | some r =>
            obtain ⟨q, names⟩ := r
            simp [List.append_assoc]
      · rw [show findAllParams (c :: cs) = findAllParams cs from by
          simp [findAllParams, hc]]
        have hacc' : ':' ∉ acc ++ [c] := by
          intro hmem
          rcases List.mem_append.mp hmem with hmem | hmem
          · exact hacc hmem
          · rcases List.mem_singleton.mp hmem with h
            exact hc h.symm
        have hlen' : cs.length ≤ N := by
          simp only [List.length_cons] at hlen
          omega
        have hih := ih cs hlen' i (acc ++ [c]) hacc'
        rw [show acc ++ c :: cs = (acc ++ [c]) ++ cs from by
          simp [List.append_assoc]]
        rw [hih]
        rw [show prepareSpec ph i (c :: cs) =
            (match prepareSpec ph i cs with
             | none => none
             | some (q, names) => some (c :: q, names)) from by
          simp [prepareSpec, hc]]
        cases hspec : prepareSpec ph i cs with
        | none => simp
        | some r =>
          obtain ⟨q, names⟩ := r
          simp [List.append_assoc]

/-- C5: the named-parameter compiler of Prepare (regexp matches in order
of first appearance, each replaced through replace-first-occurrence, its
stripped name appended) computes exactly the in-place left-to-right
rewrite prescribed by the spec, for every template and every placeholder
generator whose tokens contain no colon (all the repository dialects:
the fixed token and the dollar-numbered tokens); hence the parameter-name
list and the positional order of placeholders stay in lock-step,
including for duplicate names and names that are prefixes of other
names. -/
theorem C5_prepare_lockstep (ph : Nat → List Char) (hph : ∀ n, ':' ∉ ph n)
    (query : List Char) :
    prepareGo ph query = prepareSpec ph 0 query := by
  have h := prepareLoop_eq_spec ph hph query.length query (Nat.le_refl _) 0 [] (by simp)
  simpa [prepareGo] using h

/-- C5 witness: the concrete template of the spec's scenario with the
fixed placeholder token. -/
theorem C5_prepare_lockstep_witness :
    prepareGo (fun _ => ['?']) ("SELECT * FROM t WHERE id = :id".toList) =
      prepareSpec (fun _ => ['?']) 0 ("SELECT * FROM t WHERE id = :id".toList) :=
  C5_prepare_lockstep (fun _ => ['?'])
    (fun _ => by show ':' ∉ ['?']; decide) _

end Dbhelper
